import Mathlib

/-!
# kube-vault-auth: the secret-resolution pipeline of `main.go`

A shallow embedding of `main.go` and the properties of its pipeline:
scanning the environment for secret references (`getTargetSecrets`), logging
in (`vaultKubernetesLogin`), resolving the references against the backend
(`vaultRetrieveSecrets`) and printing the export lines (`main`).

Conventions of the embedding.

* A Go `string` is a sequence of bytes.  It is represented by a `List Char`,
  one `Char` per byte (the byte `b` is the character with code `b`); `len`,
  slicing, `strings.Split`, `strings.Join` and concatenation act on that
  sequence position by position.  All string constants of the program are
  ASCII.
* A run of the program is explicit state passing on a `World` (the requests
  handed to `client.Do` so far and the text written to standard output); a
  panic is the outcome `none`.
* The Go standard library functions whose behaviour is not fixed by the
  program are parameters (`Lib`), and so is the network (`Network`).
-/

set_option autoImplicit false

namespace KubeVaultAuth

/-! ## Strings -/

/-- A Go string: its bytes in order. -/
abbrev GoString := List Char

/-- Go `strings.Split(s, sep)` for a separator of one byte: the pieces of `s`
between the occurrences of `sep`, always at least one piece. -/
def stringsSplit : GoString → Char → List GoString
  | [], _ => [[]]
  | c :: cs, sep =>
    if c = sep then [] :: stringsSplit cs sep
    else
      match stringsSplit cs sep with
      | [] => [[c]]
      | h :: t => (c :: h) :: t

/-- Go `strings.Join(elems, sep)`. -/
def stringsJoin : List GoString → GoString → GoString
  | [], _ => []
  | [a], _ => a
  | a :: b :: rest, sep => a ++ sep ++ stringsJoin (b :: rest) sep

/-- Go slice expression `s[lo:hi]` on a string: a run-time fault (`none`)
unless `lo ≤ hi ≤ len(s)`. -/
def goSlice (s : GoString) (lo hi : Nat) : Option GoString :=
  if lo ≤ hi ∧ hi ≤ s.length then some ((s.take hi).drop lo) else none

/-- Go index expression `xs[i]` on a slice: a run-time fault (`none`) when `i`
is out of range. -/
def goIndex {α : Type} (xs : List α) (i : Nat) : Option α := xs.get? i

/-- Go map index expression `m[k]` on a `map[string]string`: the stored value,
or the zero value `""` when the key is absent (also on a nil map, which is the
empty association list). -/
def goMapIndex (m : List (GoString × GoString)) (k : GoString) : GoString :=
  match m.lookup k with
  | some v => v
  | none => []

/-- Whether `lit` occurs in `s` as a contiguous run of bytes. -/
def hasSubstring (lit : GoString) : GoString → Bool
  | [] => lit.isEmpty
  | c :: cs => lit.isPrefixOf (c :: cs) || hasSubstring lit cs

/-! ## Data model (`main.go`, lines 15-61) -/

/-- The constant `envPrefix`. -/
def envPrefix : GoString := "SECRET_".toList

/-- The command-line flags (package-level variables of `main.go`). -/
structure Flags where
  vaultAddr : GoString := "http://localhost:8200".toList
  vaultToken : GoString := []
  kubeToken : GoString := []
  vaultKubeRole : GoString := []
  debugMode : Bool := false
  deriving DecidableEq, Repr

structure KubeLoginData where
  Jwt : GoString
  Role : GoString
  deriving DecidableEq, Repr

structure Auth where
  Client_token : GoString := []
  Accessor : GoString := []
  Policies : List GoString := []
  Token_policies : List GoString := []
  Metadata : List (GoString × GoString) := []
  Lease_duration : Int := 0
  Renewable : Bool := false
  Entity_id : GoString := []
  Token_type : GoString := []
  deriving DecidableEq, Repr

structure SecretData where
  Data : List (GoString × GoString) := []
  Metadata : List (GoString × GoString) := []
  deriving DecidableEq, Repr

structure VaultResponse where
  Request_id : GoString := []
  Lease_id : GoString := []
  Renewable : Bool := false
  Lease_duration : Int := 0
  SecretData : SecretData := {}
  Wrap_info : GoString := []
  Warnings : GoString := []
  Auth : Auth := {}
  deriving DecidableEq, Repr

structure Secrets where
  key : GoString
  value : GoString
  deriving DecidableEq, Repr

/-! ## The library and the network -/

/-- An HTTP request as handed to `client.Do`. -/
structure Request where
  method : GoString
  url : GoString
  header : List (GoString × GoString)
  body : GoString
  deriving DecidableEq, Repr

/-- What the program reads of an HTTP response: the status code and the bytes
`ioutil.ReadAll` returns for the body. -/
structure Response where
  StatusCode : Int
  Body : GoString
  deriving DecidableEq, Repr

/-- Standard-library behaviour the program relies on without fixing it. -/
structure Lib where
  /-- `regexp.MatchString(pattern, s)`, first result (`false` when the pattern
  does not compile), for the patterns `regexpMatchString` does not settle. -/
  regexpEngine : GoString → GoString → Bool
  /-- `strings.ToLower`. -/
  stringsToLower : GoString → GoString
  /-- `json.Marshal` of a `KubeLoginData`. -/
  jsonMarshal : KubeLoginData → GoString
  /-- `json.Unmarshal(body, &r)` on a zero `VaultResponse`: the record left in
  `r` (the error is discarded by the program). -/
  jsonUnmarshal : GoString → VaultResponse
  /-- Whether `http.NewRequest` accepts the URL; otherwise it returns a nil
  request and an error. -/
  urlParses : GoString → Bool

/-- The network as seen through `client.Do`: given the requests sent so far
and the request at hand, a response, or `none` for an error. -/
abbrev Network := List Request → Request → Option Response

/-- The observable state of a run. -/
structure World where
  sent : List Request
  stdout : GoString
  deriving DecidableEq, Repr

/-- Go `fmt.Printf` on standard output with the text already formatted. -/
def printf (text : GoString) (w : World) : World :=
  { w with stdout := w.stdout ++ text }

/-- Go `http.NewRequest(method, url, body)`: the request with an empty header,
or `none` (a nil request) when the URL does not parse. -/
def httpNewRequest (lib : Lib) (method url body : GoString) : Option Request :=
  if lib.urlParses url then some ⟨method, url, [], body⟩ else none

/-- Go `req.Header.Set(k, v)`. -/
def headerSet (req : Request) (k v : GoString) : Request :=
  { req with header := (req.header.filter (fun kv => kv.1 != k)) ++ [(k, v)] }

/-- Go `client.Do(req)`: the request is recorded as sent; `none` is an error. -/
def clientDo (net : Network) (req : Request) (w : World) : World × Option Response :=
  ({ w with sent := w.sent ++ [req] }, net w.sent req)

/-- The bytes with a special meaning in Go regular-expression syntax (those
`regexp.QuoteMeta` escapes). -/
def regexpMeta : List Char := "\\.+*?()|[]{}^$".toList

/-- The literal `lit` when the pattern reads `lit ++ ".*"` with `lit` made of
ASCII bytes none of which is special. -/
def literalDotStar (pattern : GoString) : Option GoString :=
  match pattern.reverse with
  | '*' :: '.' :: rlit =>
    if rlit.all (fun c => decide (c.toNat < 128) && !regexpMeta.contains c)
    then some rlit.reverse else none
  | _ => none

/-- Go `regexp.MatchString(pattern, s)`, first result.  The search is not
anchored: a pattern `lit ++ ".*"` with `lit` literal matches exactly the
strings in which `lit` occurs somewhere (`.*` also matches the empty string).
Any other pattern is left to the library engine. -/
def regexpMatchString (lib : Lib) (pattern s : GoString) : Bool :=
  match literalDotStar pattern with
  | some lit => hasSubstring lit s
  | none => lib.regexpEngine pattern s

/-! ## The program (`main.go`, lines 63-152) -/

/-- The loop of `getTargetSecrets` (lines 134-143) over the remaining
environment entries, `secrets` being the slice built so far.  `none` is a
run-time fault of an index or slice expression. -/
def getTargetSecretsLoop (lib : Lib) (pfx : GoString) :
    List GoString → List Secrets → Option (List Secrets)
  | [], secrets => some secrets
  | e :: es, secrets =>
    let kv := stringsSplit e '='
    match goIndex kv 0 with
    | none => none
    | some k =>
      if !regexpMatchString lib (pfx ++ ".*".toList) k then
        getTargetSecretsLoop lib pfx es secrets
      else
        match goSlice k pfx.length k.length with
        | none => none
        | some name =>
          match goIndex kv 1 with
          | none => none
          | some v => getTargetSecretsLoop lib pfx es (secrets ++ [⟨name, v⟩])

/-- The function `getTargetSecrets(prefix)` (lines 133-145); `environ` is the
result of `os.Environ()`. -/
def getTargetSecrets (lib : Lib) (pfx : GoString) (environ : List GoString) :
    Option (List Secrets) :=
  getTargetSecretsLoop lib pfx environ []

/-- The URL of line 88, from `*vaultAddr` and a reference's locator (lines
85-88); `none` is the fault of `p[0]` on an empty split. -/
def lookupURL (addr locator : GoString) : Option GoString :=
  match stringsSplit locator '/' with
  | [] => none
  | rootPath :: rest =>
    let subPath := stringsJoin rest "/".toList
    some (addr ++ "/v1/".toList ++ rootPath ++ "/data/".toList ++ subPath)

/-- The loop of `vaultRetrieveSecrets` (lines 84-108) over the remaining
references, `values` being the slice built so far.  `none` is a panic: a
faulting index, the nil request of a failed `http.NewRequest` dereferenced at
line 90, or `panic(err)` at line 94. -/
def vaultRetrieveSecretsLoop (lib : Lib) (net : Network) (flags : Flags) :
    List Secrets → List Secrets → World → World × Option (List Secrets)
  | [], values, w => (w, some values)
  | secret :: rest, values, w =>
    match lookupURL flags.vaultAddr secret.value with
    | none => (w, none)
    | some url =>
      match httpNewRequest lib "GET".toList url [] with
      | none => (w, none)
      | some req =>
        let req := headerSet req "X-Vault-Token".toList flags.vaultToken
        match clientDo net req w with
        | (w1, none) => (w1, none)
        | (w1, some resp) =>
          let r := lib.jsonUnmarshal resp.Body
          vaultRetrieveSecretsLoop lib net flags rest
            (values ++ [⟨secret.key,
              goMapIndex r.SecretData.Data (lib.stringsToLower secret.key)⟩]) w1

/-- The function `vaultRetrieveSecrets(secrets)` (lines 83-111). -/
def vaultRetrieveSecrets (lib : Lib) (net : Network) (flags : Flags)
    (secrets : List Secrets) (w : World) : World × Option (List Secrets) :=
  vaultRetrieveSecretsLoop lib net flags secrets [] w

/-- The function `vaultKubernetesLogin(param)` (lines 113-131). -/
def vaultKubernetesLogin (lib : Lib) (net : Network) (flags : Flags)
    (param : KubeLoginData) (w : World) : World × Option VaultResponse :=
  let b := lib.jsonMarshal param
  match httpNewRequest lib "POST".toList
      (flags.vaultAddr ++ "/v1/auth/kubernetes/login".toList) b with
  | none => (w, none)
  | some req =>
    let req := headerSet req "Content-Type".toList
      "application/x-www-form-urlencoded".toList
    match clientDo net req w with
    | (w1, none) => (w1, none)
    | (w1, some resp) =>
      let r := lib.jsonUnmarshal resp.Body
      if resp.StatusCode ≠ 200 then
        (printf ("\nError occurred: ".toList ++ resp.Body) w1, some r)
      else (w1, some r)

/-- The function `logInfo(message)` (lines 147-152). -/
def logInfo (flags : Flags) (message : GoString) (w : World) : World :=
  if !flags.debugMode then w else printf ("\n".toList ++ message) w

/-- The loop of lines 78-80: one `Printf` per resolved secret. -/
def printExports : List Secrets → World → World
  | [], w => w
  | value :: rest, w =>
    printExports rest
      (printf ("\nexport ".toList ++ value.key ++ "=".toList ++ value.value) w)

/-- Lines 76-80 of `main`, run with the flags as they stand after the login
step. -/
def resolveAndExport (lib : Lib) (net : Network) (flags : Flags)
    (environ : List GoString) (w : World) : World × Option Unit :=
  match getTargetSecrets lib envPrefix environ with
  | none => (w, none)
  | some secrets =>
    match vaultRetrieveSecrets lib net flags secrets w with
    | (w1, none) => (w1, none)
    | (w1, some values) => (printExports values w1, some ())

/-- The function `main` (lines 63-81), after `flag.Parse()`. -/
def main (lib : Lib) (net : Network) (flags : Flags) (environ : List GoString)
    (w : World) : World × Option Unit :=
  if flags.vaultToken = [] then
    let w0 := logInfo flags ("Logging in to Vault: ".toList ++ flags.vaultAddr) w
    match vaultKubernetesLogin lib net flags
        ⟨flags.kubeToken, flags.vaultKubeRole⟩ w0 with
    | (w1, none) => (w1, none)
    | (w1, some resp) =>
      resolveAndExport lib net { flags with vaultToken := resp.Auth.Client_token }
        environ w1
  else resolveAndExport lib net flags environ w

/-! ## Vocabulary of the statements -/

/-- The mount of a locator: its text before the first `/` (all of it when it
has none). -/
def mountOf (locator : GoString) : GoString := locator.takeWhile (fun c => c != '/')

/-- The subpath of a locator: its text after the first `/` (empty when it has
none). -/
def subpathOf (locator : GoString) : GoString :=
  (locator.dropWhile (fun c => c != '/')).drop 1

/-- The request of lines 88-90 for a reference: a GET on the lookup URL with
the session token in the `X-Vault-Token` header. -/
def lookupRequest (flags : Flags) (secret : Secrets) : Request :=
  ⟨"GET".toList,
   flags.vaultAddr ++ "/v1/".toList ++ mountOf secret.value ++ "/data/".toList ++
     subpathOf secret.value,
   [("X-Vault-Token".toList, flags.vaultToken)], []⟩

/-- The request of lines 114-116 for the login of `main`. -/
def loginRequest (lib : Lib) (flags : Flags) : Request :=
  ⟨"POST".toList, flags.vaultAddr ++ "/v1/auth/kubernetes/login".toList,
   [("Content-Type".toList, "application/x-www-form-urlencoded".toList)],
   lib.jsonMarshal ⟨flags.kubeToken, flags.vaultKubeRole⟩⟩

/-- The flags as line 73 leaves them after a login answered by `resp`: the
token is the `client_token` decoded from the response body. -/
def flagsAfterLogin (lib : Lib) (flags : Flags) (resp : Response) : Flags :=
  { flags with vaultToken := (lib.jsonUnmarshal resp.Body).Auth.Client_token }

/-- Every lookup of a run over `secrets` that starts with the requests `sent`
already made completes: the `i`-th request is accepted by `http.NewRequest`
and, sent after the `i` requests before it, is answered by a response. -/
def LookupsComplete (lib : Lib) (net : Network) (flags : Flags)
    (secrets : List Secrets) (sent : List Request) : Prop :=
  ∀ (i : Nat) (h : i < secrets.length),
    lib.urlParses (lookupRequest flags (secrets.get ⟨i, h⟩)).url = true ∧
    (net (sent ++ (secrets.take i).map (lookupRequest flags))
      (lookupRequest flags (secrets.get ⟨i, h⟩))).isSome = true

/-- The lookups of a run over `secrets`, started with the requests `sent`
already made, stop after `k` requests for one of three reasons: all lookups
complete and `k` is their number; or the first `k` complete and
`http.NewRequest` rejects the URL of the next; or the first `j` complete and
`client.Do` returns an error on the next, which is the last request sent
(`k = j + 1`). -/
def LookupsStopAt (lib : Lib) (net : Network) (flags : Flags)
    (secrets : List Secrets) (sent : List Request) (k : Nat) : Prop :=
  (k = secrets.length ∧ LookupsComplete lib net flags secrets sent) ∨
  (∃ h : k < secrets.length,
    LookupsComplete lib net flags (secrets.take k) sent ∧
    lib.urlParses (lookupRequest flags (secrets.get ⟨k, h⟩)).url = false) ∨
  (∃ (j : Nat) (h : j < secrets.length),
    k = j + 1 ∧
    LookupsComplete lib net flags (secrets.take j) sent ∧
    lib.urlParses (lookupRequest flags (secrets.get ⟨j, h⟩)).url = true ∧
    net (sent ++ (secrets.take j).map (lookupRequest flags))
      (lookupRequest flags (secrets.get ⟨j, h⟩)) = none)

/-- The value the resolver stores for a reference, given the response to its
lookup (lines 98-105). -/
def resolvedSecret (lib : Lib) (secret : Secrets) (resp : Response) : Secrets :=
  ⟨secret.key,
    goMapIndex (lib.jsonUnmarshal resp.Body).SecretData.Data
      (lib.stringsToLower secret.key)⟩

/-- The text of line 79 for one resolved secret. -/
def exportLine (value : Secrets) : GoString :=
  "\nexport ".toList ++ value.key ++ "=".toList ++ value.value

/-- The text lines 78-80 print for a list of resolved secrets. -/
def exportText : List Secrets → GoString
  | [] => []
  | value :: rest => exportLine value ++ exportText rest

/-- The text the login step prints before the lookups: the debug line, and
the diagnostic when the status is not 200. -/
def loginText (flags : Flags) (resp : Response) : GoString :=
  (if flags.debugMode then "\nLogging in to Vault: ".toList ++ flags.vaultAddr else []) ++
  (if resp.StatusCode ≠ 200 then "\nError occurred: ".toList ++ resp.Body else [])

/-! ## A library and networks for the worked examples -/

/-- A library instance on which the worked examples are evaluated:
`strings.ToLower` on ASCII letters, `json.Marshal` of a login without bytes
that need escaping, and `json.Unmarshal` on the bodies the examples use. -/
def exampleLib : Lib where
  regexpEngine := fun _ _ => false
  stringsToLower := fun s => s.map Char.toLower
  jsonMarshal := fun p =>
    "\x7b\"jwt\":\"".toList ++ p.Jwt ++ "\",\"role\":\"".toList ++ p.Role ++ "\"\x7d".toList
  jsonUnmarshal := fun body =>
    if body = "\x7b\"data\":\x7b\"data\":\x7b\"dbpass\":\"s3cr3t\"\x7d\x7d\x7d".toList then
      { SecretData := { Data := [("dbpass".toList, "s3cr3t".toList)] } }
    else if body = "\x7b\"auth\":\x7b\"client_token\":\"x\"\x7d\x7d".toList then
      { Auth := { Client_token := "x".toList } }
    else {}
  urlParses := fun _ => true

/-- The response body of the worked example. -/
def exampleBody : GoString :=
  "\x7b\"data\":\x7b\"data\":\x7b\"dbpass\":\"s3cr3t\"\x7d\x7d\x7d".toList

/-- A network that answers every request with status 200 and the body of the
worked example. -/
def exampleNet : Network := fun _ _ => some ⟨200, exampleBody⟩

/-- A network that answers the first request made and fails on every later
one. -/
def failingNet : Network := fun sent _ =>
  if sent.length = 0 then some ⟨200, exampleBody⟩ else none

/-- A network that rejects the login with status 403 and a body that carries a
client token, and answers every lookup like `exampleNet`. -/
def forbiddenNet : Network := fun _ req =>
  if req.method = "POST".toList then
    some ⟨403, "\x7b\"auth\":\x7b\"client_token\":\"x\"\x7d\x7d".toList⟩
  else some ⟨200, exampleBody⟩

/-- A network that rejects the login with status 403 and a body that carries a
client token, and on which every lookup fails. -/
def forbiddenDownNet : Network := fun _ req =>
  if req.method = "POST".toList then
    some ⟨403, "\x7b\"auth\":\x7b\"client_token\":\"x\"\x7d\x7d".toList⟩
  else none

/-- The response of a login granted with status 200 and the client token
`x`. -/
def grantedResponse : Response :=
  ⟨200, "\x7b\"auth\":\x7b\"client_token\":\"x\"\x7d\x7d".toList⟩

/-- A network that grants the login with `grantedResponse` and answers every
lookup like `exampleNet`. -/
def grantingNet : Network := fun _ req =>
  if req.method = "POST".toList then some grantedResponse
  else some ⟨200, exampleBody⟩

/-- The example library with the URL check of `url.Parse` on control bytes:
`http.NewRequest` rejects a URL that holds a byte below `0x20` or the byte
`0x7f`. -/
def ctlLib : Lib :=
  { exampleLib with
    urlParses := fun url => !url.any (fun c => decide (c.toNat < 32) || c.toNat == 127) }

/-- A reference whose locator ends in a line feed. -/
def refNewline : Secrets := ⟨"X".toList, "kv/\n".toList⟩

/-- The environment of the worked example. -/
def exampleEnviron : List GoString :=
  ["SECRET_DBPASS=kv/app/db".toList, "HOME=/root".toList, "SECRET_OTHER=kv/x".toList]

/-- The references the scanner finds in `exampleEnviron`. -/
def exampleSecrets : List Secrets :=
  [⟨"DBPASS".toList, "kv/app/db".toList⟩, ⟨"OTHER".toList, "kv/x".toList⟩]

/-- The response of the login rejected with status 403. -/
def forbiddenResponse : Response :=
  ⟨403, "\x7b\"auth\":\x7b\"client_token\":\"x\"\x7d\x7d".toList⟩

/-- The first of three references for the runs on a failing network. -/
def refA : Secrets := ⟨"A".toList, "kv/a".toList⟩

/-- The second of the three references. -/
def refB : Secrets := ⟨"B".toList, "kv/b".toList⟩

/-- The third of the three references. -/
def refC : Secrets := ⟨"C".toList, "kv/c".toList⟩

/-- The initial state of a run: nothing sent, nothing printed. -/
def initialWorld : World := ⟨[], []⟩

/-! ## Lemmas on the string functions -/

theorem stringsSplit_ne_nil (s : GoString) (sep : Char) : stringsSplit s sep ≠ [] := by
  cases s with
  | nil => simp [stringsSplit]
  | cons c cs =>
    unfold stringsSplit
    split
    · simp
    · split <;> simp

/-- Joining the pieces of a split with the separator gives the string back. -/
theorem stringsJoin_stringsSplit (s : GoString) (sep : Char) :
    stringsJoin (stringsSplit s sep) [sep] = s := by
  induction s with
  | nil => simp [stringsSplit, stringsJoin]
  | cons c cs ih =>
    unfold stringsSplit
    by_cases hc : c = sep
    · simp only [hc, if_true]
      cases hs : stringsSplit cs sep with
      | nil => exact absurd hs (stringsSplit_ne_nil cs sep)
      | cons h t =>
        rw [hs] at ih
        simp [stringsJoin, ih]
    · simp only [hc, if_false]
      cases hs : stringsSplit cs sep with
      | nil => exact absurd hs (stringsSplit_ne_nil cs sep)
      | cons h t =>
        rw [hs] at ih
        cases t with
        | nil => simpa [stringsJoin] using ih
        | cons b r =>
          simp only [stringsJoin] at ih ⊢
          simp [← ih]

/-- The first piece of a split is the text before the first separator, and the
other pieces joined again are the text after it. -/
theorem stringsSplit_head_tail (s : GoString) (sep : Char) :
    ∃ t, stringsSplit s sep = s.takeWhile (fun c => c != sep) :: t ∧
      stringsJoin t [sep] = (s.dropWhile (fun c => c != sep)).drop 1 := by
  induction s with
  | nil => exact ⟨[], by simp [stringsSplit], by simp [stringsJoin]⟩
  | cons c cs ih =>
    obtain ⟨t, ht, hj⟩ := ih
    by_cases hc : c = sep
    · refine ⟨stringsSplit cs sep, ?_, ?_⟩
      · simp [stringsSplit, hc]
      · simp [hc, stringsJoin_stringsSplit]
    · refine ⟨t, ?_, ?_⟩
      · simp [stringsSplit, hc, ht]
      · simp [hc, hj]

/-- A string that contains the separator splits into at least two pieces, the
second being the text between the first and the second separator. -/
theorem stringsSplit_second (s : GoString) (sep : Char) (h : sep ∈ s) :
    ∃ t, stringsSplit s sep = s.takeWhile (fun c => c != sep) ::
      ((s.dropWhile (fun c => c != sep)).drop 1).takeWhile (fun c => c != sep) :: t := by
  induction s with
  | nil => simp at h
  | cons c cs ih =>
    by_cases hc : c = sep
    · obtain ⟨t, ht, -⟩ := stringsSplit_head_tail cs sep
      exact ⟨t, by simp [stringsSplit, hc, ht]⟩
    · have h2 : sep ∈ cs := by
        rcases List.mem_cons.mp h with h1 | h1
        · exact absurd h1.symm hc
        · exact h1
      obtain ⟨t, ht⟩ := ih h2
      exact ⟨t, by simp [stringsSplit, hc, ht]⟩

theorem length_le_of_isPrefixOf (lit s : GoString) (h : lit.isPrefixOf s = true) :
    lit.length ≤ s.length :=
  (List.isPrefixOf_iff_prefix.mp h).length_le

/-- A string in which `lit` occurs is at least as long as `lit`. -/
theorem length_le_of_hasSubstring (lit s : GoString) (h : hasSubstring lit s = true) :
    lit.length ≤ s.length := by
  induction s with
  | nil =>
    simp only [hasSubstring, List.isEmpty_iff] at h
    simp [h]
  | cons c cs ih =>
    simp only [hasSubstring, Bool.or_eq_true] at h
    rcases h with h | h
    · exact length_le_of_isPrefixOf _ _ h
    · exact Nat.le_succ_of_le (ih h)

/-- For the built-in pattern the match is the substring test. -/
theorem regexpMatchString_envPrefix (lib : Lib) (s : GoString) :
    regexpMatchString lib (envPrefix ++ ".*".toList) s = hasSubstring envPrefix s := by
  have h : literalDotStar (envPrefix ++ ".*".toList) = some envPrefix := by decide
  unfold regexpMatchString
  rw [h]

/-! ## The scanner: `getTargetSecrets` -/

/-- One step of the scanner loop on an entry that has an `=`, for the built-in
pattern: the entry is skipped when `SECRET_` does not occur in its key, and
otherwise yields the key without its first seven bytes together with the text
between the first and the second `=`. -/
theorem getTargetSecretsLoop_cons_envPrefix (lib : Lib) (e : GoString)
    (es : List GoString) (secrets : List Secrets) (h : '=' ∈ e) :
    getTargetSecretsLoop lib envPrefix (e :: es) secrets =
      if hasSubstring envPrefix (e.takeWhile (fun c => c != '=')) then
        getTargetSecretsLoop lib envPrefix es
          (secrets ++ [⟨(e.takeWhile (fun c => c != '=')).drop envPrefix.length,
            ((e.dropWhile (fun c => c != '=')).drop 1).takeWhile (fun c => c != '=')⟩])
      else getTargetSecretsLoop lib envPrefix es secrets := by
  obtain ⟨t, ht⟩ := stringsSplit_second e '=' h
  rw [getTargetSecretsLoop]
  simp only [ht, goIndex, List.get?_cons_zero, List.get?_cons_succ,
    regexpMatchString_envPrefix]
  by_cases hm : hasSubstring envPrefix (e.takeWhile (fun c => c != '=')) = true
  · have hlen := length_le_of_hasSubstring _ _ hm
    simp [hm, goSlice, hlen]
  · simp [hm]

theorem getTargetSecretsLoop_envPrefix_isSome (lib : Lib) (environ : List GoString)
    (h : ∀ e ∈ environ, '=' ∈ e) (secrets : List Secrets) :
    ∃ out, getTargetSecretsLoop lib envPrefix environ secrets = some out := by
  induction environ generalizing secrets with
  | nil => exact ⟨secrets, rfl⟩
  | cons e es ih =>
    have he : '=' ∈ e := h e (List.mem_cons_self _ _)
    have hes : ∀ x ∈ es, '=' ∈ x := fun x hx => h x (List.mem_cons_of_mem _ hx)
    rw [getTargetSecretsLoop_cons_envPrefix lib e es secrets he]
    split
    · exact ih hes _
    · exact ih hes _

/-- C1 (evaluation at the failing input): with the built-in prefix `SECRET_`,
the entry `AWS_SECRET_ACCESS_KEY=wJalr/XUtn`, whose key does not start with
the prefix, is accepted all the same, and its reference is named
`RET_ACCESS_KEY`, the key without its first seven bytes. -/
theorem getTargetSecrets_accepts_inner_occurrence :
    envPrefix.isPrefixOf "AWS_SECRET_ACCESS_KEY".toList = false ∧
    ∀ lib : Lib,
      getTargetSecrets lib envPrefix ["AWS_SECRET_ACCESS_KEY=wJalr/XUtn".toList] =
        some [⟨"RET_ACCESS_KEY".toList, "wJalr/XUtn".toList⟩] := by
  refine ⟨by decide, fun lib => ?_⟩
  rw [getTargetSecrets, getTargetSecretsLoop_cons_envPrefix lib _ _ _ (by decide)]
  rfl

/-- C2 (evaluation at the failing input): for the entry `SECRET_X=a=b` the
locator of the reference is `a`, the text between the first and the second
`=`, and not the value `a=b`. -/
theorem getTargetSecrets_locator_cut_at_second_eq :
    ∀ lib : Lib, getTargetSecrets lib envPrefix ["SECRET_X=a=b".toList] =
      some [⟨"X".toList, "a".toList⟩] := by
  intro lib
  rw [getTargetSecrets, getTargetSecretsLoop_cons_envPrefix lib _ _ _ (by decide)]
  rfl

/-- C10: with the built-in prefix `SECRET_` and an environment whose entries
all contain an `=`, `getTargetSecrets` returns a result (no index or slice
expression faults): for every entry it accepts, the slice
`[len(prefix):len(key)]` of the key is in range and index 1 of the split
exists. -/
theorem getTargetSecrets_envPrefix_never_faults (lib : Lib) (environ : List GoString)
    (h : ∀ e ∈ environ, '=' ∈ e) :
    (∃ secrets, getTargetSecrets lib envPrefix environ = some secrets) ∧
    ∀ e ∈ environ, ∀ k, goIndex (stringsSplit e '=') 0 = some k →
      regexpMatchString lib (envPrefix ++ ".*".toList) k = true →
      (envPrefix.length ≤ k.length ∧ (goSlice k envPrefix.length k.length).isSome) ∧
        (goIndex (stringsSplit e '=') 1).isSome := by
  refine ⟨getTargetSecretsLoop_envPrefix_isSome lib environ h [], ?_⟩
  intro e he k hk hm
  obtain ⟨t, ht⟩ := stringsSplit_second e '=' (h e he)
  rw [regexpMatchString_envPrefix] at hm
  have hlen := length_le_of_hasSubstring _ _ hm
  refine ⟨⟨hlen, ?_⟩, ?_⟩
  · simp [goSlice, hlen]
  · simp [ht, goIndex]

theorem getTargetSecrets_envPrefix_never_faults_witness :
    (∀ e ∈ ["SECRET_A=kv/a".toList, "HOME=/root".toList], '=' ∈ e) ∧
    ((∃ secrets, getTargetSecrets exampleLib envPrefix
        ["SECRET_A=kv/a".toList, "HOME=/root".toList] = some secrets) ∧
    ∀ e ∈ ["SECRET_A=kv/a".toList, "HOME=/root".toList],
      ∀ k, goIndex (stringsSplit e '=') 0 = some k →
      regexpMatchString exampleLib (envPrefix ++ ".*".toList) k = true →
      (envPrefix.length ≤ k.length ∧ (goSlice k envPrefix.length k.length).isSome) ∧
        (goIndex (stringsSplit e '=') 1).isSome) :=
  ⟨by decide, getTargetSecrets_envPrefix_never_faults exampleLib
    ["SECRET_A=kv/a".toList, "HOME=/root".toList] (by decide)⟩

/-! ## The resolver: `vaultRetrieveSecrets` -/

theorem lookupURL_eq (addr locator : GoString) :
    lookupURL addr locator =
      some (addr ++ "/v1/".toList ++ mountOf locator ++ "/data/".toList ++
        subpathOf locator) := by
  obtain ⟨t, ht, hj⟩ := stringsSplit_head_tail locator '/'
  have hj2 : stringsJoin t "/".toList = subpathOf locator := hj
  simp only [lookupURL, ht, hj2, mountOf]

/-- One step of the resolver loop. -/
theorem vaultRetrieveSecretsLoop_cons (lib : Lib) (net : Network) (flags : Flags)
    (secret : Secrets) (rest values : List Secrets) (w : World) :
    vaultRetrieveSecretsLoop lib net flags (secret :: rest) values w =
      if lib.urlParses (lookupRequest flags secret).url then
        match net w.sent (lookupRequest flags secret) with
        | none => (⟨w.sent ++ [lookupRequest flags secret], w.stdout⟩, none)
        | some resp =>
          vaultRetrieveSecretsLoop lib net flags rest
            (values ++ [⟨secret.key,
              goMapIndex (lib.jsonUnmarshal resp.Body).SecretData.Data
                (lib.stringsToLower secret.key)⟩])
            ⟨w.sent ++ [lookupRequest flags secret], w.stdout⟩
      else (w, none) := by
  rw [vaultRetrieveSecretsLoop, lookupURL_eq]
  by_cases hp : lib.urlParses (lookupRequest flags secret).url = true
  · rw [if_pos hp]
    cases hn : net w.sent (lookupRequest flags secret) with
    | none =>
      simp only [lookupRequest, httpNewRequest, clientDo, headerSet] at hp hn ⊢
      simp at hp hn
      simp [hp, hn]
    | some resp =>
      simp only [lookupRequest, httpNewRequest, clientDo, headerSet] at hp hn ⊢
      simp at hp hn
      simp [hp, hn]
  · rw [if_neg hp]
    simp only [lookupRequest, httpNewRequest] at hp ⊢
    simp at hp
    simp [hp]

/-- C3: the lookup URL built by `vaultRetrieveSecrets` for a locator is
`<addr>/v1/<mount>/data/<subpath>`, the mount being the text of the locator
before its first `/` and the subpath everything after that `/`; this is the
URL of the request sent for a reference (when `http.NewRequest` accepts it).
So `a/b/c` has mount `a` and subpath `b/c`, `a` has mount `a` and an empty
subpath, and `kv/app/db` gives the path `kv/data/app/db`. -/
theorem lookupURL_mount_data_subpath (lib : Lib) (net : Network) (flags : Flags)
    (secret : Secrets) (w : World) :
    lookupURL flags.vaultAddr secret.value =
      some (flags.vaultAddr ++ "/v1/".toList ++
        secret.value.takeWhile (fun c => c != '/') ++ "/data/".toList ++
        (secret.value.dropWhile (fun c => c != '/')).drop 1) ∧
    (vaultRetrieveSecrets lib net flags [secret] w).1.sent =
      w.sent ++
        (if lib.urlParses (flags.vaultAddr ++ "/v1/".toList ++
            secret.value.takeWhile (fun c => c != '/') ++ "/data/".toList ++
            (secret.value.dropWhile (fun c => c != '/')).drop 1)
         then [⟨"GET".toList,
            flags.vaultAddr ++ "/v1/".toList ++
              secret.value.takeWhile (fun c => c != '/') ++ "/data/".toList ++
              (secret.value.dropWhile (fun c => c != '/')).drop 1,
            [("X-Vault-Token".toList, flags.vaultToken)], []⟩]
         else []) ∧
    lookupURL flags.vaultAddr "a/b/c".toList =
      some (flags.vaultAddr ++ "/v1/".toList ++ "a".toList ++ "/data/".toList ++
        "b/c".toList) ∧
    lookupURL flags.vaultAddr "a".toList =
      some (flags.vaultAddr ++ "/v1/".toList ++ "a".toList ++ "/data/".toList ++
        "".toList) ∧
    lookupURL flags.vaultAddr "kv/app/db".toList =
      some (flags.vaultAddr ++ "/v1/".toList ++ "kv/data/app/db".toList) := by
  refine ⟨lookupURL_eq _ _, ?_, ?_, ?_, ?_⟩
  · rw [vaultRetrieveSecrets, vaultRetrieveSecretsLoop_cons]
    by_cases hp : lib.urlParses (lookupRequest flags secret).url = true
    · have hp2 := hp
      simp only [lookupRequest, mountOf, subpathOf] at hp2
      rw [if_pos hp, if_pos hp2]
      cases hn : net w.sent (lookupRequest flags secret) with
      | none => simp [lookupRequest, mountOf, subpathOf]
      | some resp => simp [vaultRetrieveSecretsLoop, lookupRequest, mountOf, subpathOf]
    · have hp2 := hp
      simp only [lookupRequest, mountOf, subpathOf] at hp2
      rw [if_neg hp, if_neg hp2]
      simp
  · rw [lookupURL_eq]; simp [mountOf, subpathOf]
  · rw [lookupURL_eq]; simp [mountOf, subpathOf]
  · rw [lookupURL_eq]; simp [mountOf, subpathOf]

theorem lookupsComplete_cons (lib : Lib) (net : Network) (flags : Flags)
    (s : Secrets) (rest : List Secrets) (sent : List Request)
    (h : LookupsComplete lib net flags (s :: rest) sent) :
    lib.urlParses (lookupRequest flags s).url = true ∧
    (net sent (lookupRequest flags s)).isSome = true ∧
    LookupsComplete lib net flags rest (sent ++ [lookupRequest flags s]) := by
  refine ⟨(h 0 (by simp)).1, ?_, ?_⟩
  · simpa using (h 0 (by simp)).2
  · intro i hi
    have := h (i + 1) (by simpa using hi)
    simpa using this

theorem lookupsComplete_of_cons (lib : Lib) (net : Network) (flags : Flags)
    (s : Secrets) (rest : List Secrets) (sent : List Request)
    (h1 : lib.urlParses (lookupRequest flags s).url = true)
    (h2 : (net sent (lookupRequest flags s)).isSome = true)
    (h3 : LookupsComplete lib net flags rest (sent ++ [lookupRequest flags s])) :
    LookupsComplete lib net flags (s :: rest) sent := by
  intro i hi
  cases i with
  | zero => exact ⟨h1, by simpa using h2⟩
  | succ j =>
    have := h3 j (by simpa using hi)
    simpa using this

theorem lookupsComplete_nil (lib : Lib) (net : Network) (flags : Flags)
    (sent : List Request) : LookupsComplete lib net flags [] sent := by
  intro i hi
  simp at hi

/-- A run of the resolver loop in which every lookup completes: all requests
are sent, nothing is printed, and one value per reference is appended, the
`i`-th taken from the response to the `i`-th request. -/
theorem vaultRetrieveSecretsLoop_complete (lib : Lib) (net : Network) (flags : Flags)
    (secrets : List Secrets) :
    ∀ (values : List Secrets) (w : World),
      LookupsComplete lib net flags secrets w.sent →
      ∃ out : List Secrets,
        vaultRetrieveSecretsLoop lib net flags secrets values w =
          (⟨w.sent ++ secrets.map (lookupRequest flags), w.stdout⟩, some (values ++ out)) ∧
        out.map (fun v => v.key) = secrets.map (fun s => s.key) ∧
        ∀ (i : Nat) (h : i < secrets.length) (resp : Response),
          net (w.sent ++ (secrets.take i).map (lookupRequest flags))
            (lookupRequest flags (secrets.get ⟨i, h⟩)) = some resp →
          out.get? i = some (resolvedSecret lib (secrets.get ⟨i, h⟩) resp) := by
  induction secrets with
  | nil =>
    intro values w _
    refine ⟨[], ?_, rfl, ?_⟩
    · simp [vaultRetrieveSecretsLoop]
    · intro i h
      simp at h
  | cons s rest ih =>
    intro values w hc
    obtain ⟨hp, hn, hrest⟩ := lookupsComplete_cons lib net flags s rest w.sent hc
    obtain ⟨resp0, hresp0⟩ := Option.isSome_iff_exists.mp hn
    obtain ⟨out, hrun, hkeys, hvals⟩ :=
      ih (values ++ [resolvedSecret lib s resp0])
        ⟨w.sent ++ [lookupRequest flags s], w.stdout⟩ hrest
    refine ⟨resolvedSecret lib s resp0 :: out, ?_, ?_, ?_⟩
    · rw [vaultRetrieveSecretsLoop_cons, if_pos hp, hresp0]
      simp only [resolvedSecret] at hrun ⊢
      rw [hrun]
      simp
    · simp [hkeys, resolvedSecret]
    · intro i h resp hr
      cases i with
      | zero =>
        have hr2 : net w.sent (lookupRequest flags s) = some resp := by simpa using hr
        rw [hresp0] at hr2
        cases hr2
        simp
      | succ j =>
        have hj : j < rest.length := by simpa using h
        have := hvals j hj resp (by simpa using hr)
        simpa using this

/-- Whatever the network does, the resolver loop sends the lookup requests of
an initial run of the references, in order, and prints nothing. -/
theorem vaultRetrieveSecretsLoop_sent (lib : Lib) (net : Network) (flags : Flags)
    (secrets : List Secrets) :
    ∀ (values : List Secrets) (w : World),
      ∃ k, k ≤ secrets.length ∧
        (vaultRetrieveSecretsLoop lib net flags secrets values w).1 =
          ⟨w.sent ++ (secrets.take k).map (lookupRequest flags), w.stdout⟩ := by
  induction secrets with
  | nil =>
    intro values w
    exact ⟨0, le_refl _, by simp [vaultRetrieveSecretsLoop]⟩
  | cons s rest ih =>
    intro values w
    rw [vaultRetrieveSecretsLoop_cons]
    by_cases hp : lib.urlParses (lookupRequest flags s).url = true
    · rw [if_pos hp]
      cases hn : net w.sent (lookupRequest flags s) with
      | none => exact ⟨1, by simp, by simp⟩
      | some resp =>
        obtain ⟨k, hk, hrun⟩ :=
          ih (values ++ [⟨s.key,
              goMapIndex (lib.jsonUnmarshal resp.Body).SecretData.Data
                (lib.stringsToLower s.key)⟩])
            ⟨w.sent ++ [lookupRequest flags s], w.stdout⟩
        exact ⟨k + 1, by simpa using hk, by simp [hrun]⟩
    · rw [if_neg hp]
      exact ⟨0, by simp, by simp⟩

/-- The resolver loop over a concatenation runs the first part and, unless
that panics, continues with the second. -/
theorem vaultRetrieveSecretsLoop_append (lib : Lib) (net : Network) (flags : Flags)
    (xs ys : List Secrets) :
    ∀ (values : List Secrets) (w : World),
      vaultRetrieveSecretsLoop lib net flags (xs ++ ys) values w =
        match vaultRetrieveSecretsLoop lib net flags xs values w with
        | (w1, none) => (w1, none)
        | (w1, some v1) => vaultRetrieveSecretsLoop lib net flags ys v1 w1 := by
  induction xs with
  | nil =>
    intro values w
    simp [vaultRetrieveSecretsLoop]
  | cons s rest ih =>
    intro values w
    rw [List.cons_append, vaultRetrieveSecretsLoop_cons, vaultRetrieveSecretsLoop_cons]
    by_cases hp : lib.urlParses (lookupRequest flags s).url = true
    · rw [if_pos hp, if_pos hp]
      cases hn : net w.sent (lookupRequest flags s) with
      | none => rfl
      | some resp => exact ih _ _
    · rw [if_neg hp, if_neg hp]

theorem lookupsStopAt_cons (lib : Lib) (net : Network) (flags : Flags)
    (s : Secrets) (rest : List Secrets) (sent : List Request) (k : Nat)
    (h1 : lib.urlParses (lookupRequest flags s).url = true)
    (h2 : (net sent (lookupRequest flags s)).isSome = true)
    (h : LookupsStopAt lib net flags rest (sent ++ [lookupRequest flags s]) k) :
    LookupsStopAt lib net flags (s :: rest) sent (k + 1) := by
  rcases h with ⟨hk, hc⟩ | ⟨hlt, hc, hu⟩ | ⟨j, hj, hk, hc, hu, hn⟩
  · exact Or.inl ⟨by simp [hk], lookupsComplete_of_cons lib net flags s rest sent h1 h2 hc⟩
  · refine Or.inr (Or.inl ⟨by simpa using hlt, ?_, ?_⟩)
    · rw [List.take_succ_cons]
      exact lookupsComplete_of_cons lib net flags s _ sent h1 h2 hc
    · simpa using hu
  · refine Or.inr (Or.inr ⟨j + 1, by simpa using hj, by omega, ?_, ?_, ?_⟩)
    · rw [List.take_succ_cons]
      exact lookupsComplete_of_cons lib net flags s _ sent h1 h2 hc
    · simpa using hu
    · simpa using hn

/-- When every lookup completes, the lookups stop only after the last one. -/
theorem lookupsStopAt_complete (lib : Lib) (net : Network) (flags : Flags)
    (secrets : List Secrets) (sent : List Request) (k : Nat)
    (h : LookupsStopAt lib net flags secrets sent k)
    (hc : LookupsComplete lib net flags secrets sent) : k = secrets.length := by
  rcases h with ⟨hk, -⟩ | ⟨hlt, -, hu⟩ | ⟨j, hj, -, -, -, hn⟩
  · exact hk
  · have h1 := (hc k hlt).1
    rw [hu] at h1
    cases h1
  · have h2 := (hc j hj).2
    rw [hn] at h2
    cases h2

/-- Whatever the network does, the resolver loop prints nothing and sends the
lookup requests of the first `k` references, where `k` is the point at which
the lookups stop. -/
theorem vaultRetrieveSecretsLoop_trace (lib : Lib) (net : Network) (flags : Flags)
    (secrets : List Secrets) :
    ∀ (values : List Secrets) (w : World),
      ∃ k,
        (vaultRetrieveSecretsLoop lib net flags secrets values w).1 =
          ⟨w.sent ++ (secrets.take k).map (lookupRequest flags), w.stdout⟩ ∧
        LookupsStopAt lib net flags secrets w.sent k := by
  induction secrets with
  | nil =>
    intro values w
    exact ⟨0, by simp [vaultRetrieveSecretsLoop],
      Or.inl ⟨rfl, lookupsComplete_nil lib net flags w.sent⟩⟩
  | cons s rest ih =>
    intro values w
    rw [vaultRetrieveSecretsLoop_cons]
    by_cases hp : lib.urlParses (lookupRequest flags s).url = true
    · rw [if_pos hp]
      cases hn : net w.sent (lookupRequest flags s) with
      | none =>
        refine ⟨1, by simp, Or.inr (Or.inr ⟨0, by simp, rfl, ?_, ?_, ?_⟩)⟩
        · exact lookupsComplete_nil lib net flags w.sent
        · simpa using hp
        · simpa using hn
      | some resp =>
        obtain ⟨k, hrun, hstop⟩ :=
          ih (values ++ [⟨s.key,
              goMapIndex (lib.jsonUnmarshal resp.Body).SecretData.Data
                (lib.stringsToLower s.key)⟩])
            ⟨w.sent ++ [lookupRequest flags s], w.stdout⟩
        refine ⟨k + 1, by simp [hrun], ?_⟩
        exact lookupsStopAt_cons lib net flags s rest w.sent k hp (by simp [hn]) hstop
    · rw [if_neg hp]
      refine ⟨0, by simp, Or.inr (Or.inl ⟨by simp, ?_, ?_⟩)⟩
      · exact lookupsComplete_nil lib net flags w.sent
      · simpa using hp

/-- C5: when every lookup completes, `vaultRetrieveSecrets` returns one value
per reference, and the value for a reference is the string stored in the data
map of the decoded response under the lower-cased name when that key is
present, and the empty string when the key is absent or the map is empty. -/
theorem vaultRetrieveSecrets_value (lib : Lib) (net : Network) (flags : Flags)
    (secrets : List Secrets) (w : World)
    (hc : LookupsComplete lib net flags secrets w.sent) :
    ∃ values,
      (vaultRetrieveSecrets lib net flags secrets w).2 = some values ∧
      ∀ (i : Nat) (h : i < secrets.length) (resp : Response),
        net (w.sent ++ (secrets.take i).map (lookupRequest flags))
          (lookupRequest flags (secrets.get ⟨i, h⟩)) = some resp →
        ∃ v, values.get? i = some v ∧
          v.key = (secrets.get ⟨i, h⟩).key ∧
          (∀ x, (lib.jsonUnmarshal resp.Body).SecretData.Data.lookup
              (lib.stringsToLower (secrets.get ⟨i, h⟩).key) = some x → v.value = x) ∧
          ((lib.jsonUnmarshal resp.Body).SecretData.Data.lookup
              (lib.stringsToLower (secrets.get ⟨i, h⟩).key) = none → v.value = []) ∧
          ((lib.jsonUnmarshal resp.Body).SecretData.Data = [] → v.value = []) := by
  obtain ⟨out, hrun, -, hvals⟩ :=
    vaultRetrieveSecretsLoop_complete lib net flags secrets [] w hc
  refine ⟨out, ?_, ?_⟩
  · rw [vaultRetrieveSecrets, hrun]
    simp
  · intro i h resp hr
    refine ⟨_, hvals i h resp hr, rfl, ?_, ?_, ?_⟩
    · intro x hx
      show goMapIndex _ _ = x
      rw [goMapIndex, hx]
    · intro hx
      show goMapIndex _ _ = []
      rw [goMapIndex, hx]
    · intro hx
      show goMapIndex _ _ = []
      rw [goMapIndex, hx]
      rfl

/-- C6 (as stated, refuted): on a network where `client.Do` never returns an
error, the reference with locator `kv/` followed by a line feed makes
`http.NewRequest` reject the URL, and `vaultRetrieveSecrets` panics on the nil
request of line 90: no request is sent, so no lookup fails at transport level,
and no list is returned. -/
theorem rejected_url_panics_without_transport_failure :
    exampleNet initialWorld.sent (lookupRequest {} refNewline) = some ⟨200, exampleBody⟩ ∧
    vaultRetrieveSecrets ctlLib exampleNet {} [refNewline] initialWorld =
      (initialWorld, none) := by
  decide

/-- C6 (amended): when every lookup completes, that is, each request is
accepted by `http.NewRequest` and `client.Do` returns a response for it,
`vaultRetrieveSecrets` returns a list as long as its input whose `i`-th
element carries the name of the `i`-th reference, for every session token,
library and network. -/
theorem vaultRetrieveSecrets_length_order (lib : Lib) (net : Network) (flags : Flags)
    (secrets : List Secrets) (w : World)
    (hc : LookupsComplete lib net flags secrets w.sent) :
    ∃ values,
      (vaultRetrieveSecrets lib net flags secrets w).2 = some values ∧
      values.length = secrets.length ∧
      values.map (fun v => v.key) = secrets.map (fun s => s.key) := by
  obtain ⟨out, hrun, hkeys, -⟩ :=
    vaultRetrieveSecretsLoop_complete lib net flags secrets [] w hc
  refine ⟨out, ?_, ?_, hkeys⟩
  · rw [vaultRetrieveSecrets, hrun]
    simp
  · have := congrArg List.length hkeys
    simpa using this

/-- C9: when the lookups of the references `pre` complete and the lookup of
the next reference `s` gets an error from `client.Do`, `vaultRetrieveSecrets`
panics: it returns no list, and the requests sent are those of `pre` and `s`
only, none for a reference of `post`. -/
theorem vaultRetrieveSecrets_abort (lib : Lib) (net : Network) (flags : Flags)
    (pre : List Secrets) (s : Secrets) (post : List Secrets) (w : World)
    (hpre : LookupsComplete lib net flags pre w.sent)
    (hurl : lib.urlParses (lookupRequest flags s).url = true)
    (hfail : net (w.sent ++ pre.map (lookupRequest flags)) (lookupRequest flags s) = none) :
    vaultRetrieveSecrets lib net flags (pre ++ s :: post) w =
      (⟨w.sent ++ (pre ++ [s]).map (lookupRequest flags), w.stdout⟩, none) := by
  obtain ⟨out, hrun, -, -⟩ :=
    vaultRetrieveSecretsLoop_complete lib net flags pre [] w hpre
  rw [vaultRetrieveSecrets, vaultRetrieveSecretsLoop_append, hrun]
  simp only []
  rw [vaultRetrieveSecretsLoop_cons, if_pos hurl]
  simp only [hfail]
  simp

/-! ## The driver: `main` -/

theorem printExports_eq (values : List Secrets) :
    ∀ w : World, printExports values w = ⟨w.sent, w.stdout ++ exportText values⟩ := by
  induction values with
  | nil =>
    intro w
    simp [printExports, exportText]
  | cons v rest ih =>
    intro w
    rw [printExports, ih]
    simp [printf, exportText, exportLine]

theorem vaultKubernetesLogin_eq (lib : Lib) (net : Network) (flags : Flags) (w : World) :
    vaultKubernetesLogin lib net flags ⟨flags.kubeToken, flags.vaultKubeRole⟩ w =
      if lib.urlParses (loginRequest lib flags).url then
        match net w.sent (loginRequest lib flags) with
        | none => (⟨w.sent ++ [loginRequest lib flags], w.stdout⟩, none)
        | some resp =>
          (⟨w.sent ++ [loginRequest lib flags],
            w.stdout ++
              (if resp.StatusCode ≠ 200 then "\nError occurred: ".toList ++ resp.Body
               else [])⟩,
           some (lib.jsonUnmarshal resp.Body))
      else (w, none) := by
  rw [vaultKubernetesLogin]
  by_cases hp : lib.urlParses (loginRequest lib flags).url = true
  · rw [if_pos hp]
    cases hn : net w.sent (loginRequest lib flags) with
    | none =>
      simp only [loginRequest, httpNewRequest, clientDo, headerSet] at hp hn ⊢
      simp at hp hn
      simp [hp, hn]
    | some resp =>
      simp only [loginRequest, httpNewRequest, clientDo, headerSet] at hp hn ⊢
      simp at hp hn
      by_cases hs : resp.StatusCode = 200
      · simp [hp, hn, hs]
      · simp [hp, hn, hs, printf]
  · rw [if_neg hp]
    simp only [loginRequest, httpNewRequest] at hp ⊢
    simp at hp
    simp [hp]

/-- With a session token supplied, `main` goes straight to the lookups. -/
theorem main_of_token (lib : Lib) (net : Network) (flags : Flags)
    (environ : List GoString) (w : World) (htok : flags.vaultToken ≠ []) :
    main lib net flags environ w = resolveAndExport lib net flags environ w := by
  rw [main, if_neg htok]

/-- Without a session token, and with a login that is answered, `main`
continues with the lookups under the decoded token, whatever the status. -/
theorem main_of_login (lib : Lib) (net : Network) (flags : Flags)
    (environ : List GoString) (w : World) (resp : Response)
    (htok : flags.vaultToken = [])
    (hurl : lib.urlParses (loginRequest lib flags).url = true)
    (hresp : net w.sent (loginRequest lib flags) = some resp) :
    main lib net flags environ w =
      resolveAndExport lib net (flagsAfterLogin lib flags resp) environ
        ⟨w.sent ++ [loginRequest lib flags], w.stdout ++ loginText flags resp⟩ := by
  have hsent : (logInfo flags ("Logging in to Vault: ".toList ++ flags.vaultAddr) w).sent
      = w.sent := by
    unfold logInfo printf
    split <;> rfl
  have hout : (logInfo flags ("Logging in to Vault: ".toList ++ flags.vaultAddr) w).stdout
      = w.stdout ++
        (if flags.debugMode then "\nLogging in to Vault: ".toList ++ flags.vaultAddr
         else []) := by
    unfold logInfo printf
    cases flags.debugMode <;> simp
  rw [main, if_pos htok]
  simp only []
  rw [vaultKubernetesLogin_eq, if_pos hurl, hsent, hresp]
  simp only [hout, flagsAfterLogin, loginText, List.append_assoc]

/-- Whatever happens, `resolveAndExport` sends the lookup requests of an
initial run of the scanned references and only appends to standard output. -/
theorem resolveAndExport_sent (lib : Lib) (net : Network) (flags : Flags)
    (environ : List GoString) (w : World) :
    ∃ k out,
      (resolveAndExport lib net flags environ w).1 =
        ⟨w.sent ++ (((getTargetSecrets lib envPrefix environ).getD []).take k).map
            (lookupRequest flags),
          w.stdout ++ out⟩ := by
  rw [resolveAndExport]
  cases hs : getTargetSecrets lib envPrefix environ with
  | none => exact ⟨0, [], by simp⟩
  | some secrets =>
    obtain ⟨k, -, hrun⟩ := vaultRetrieveSecretsLoop_sent lib net flags secrets [] w
    simp only [vaultRetrieveSecrets]
    cases hv : vaultRetrieveSecretsLoop lib net flags secrets [] w with
    | mk w1 res =>
      rw [hv] at hrun
      simp only at hrun
      cases res with
      | none => exact ⟨k, [], by simp [hrun]⟩
      | some values => exact ⟨k, exportText values, by simp [printExports_eq, hrun]⟩

/-- When the scanner returns `secrets` and every lookup completes,
`resolveAndExport` sends one request per reference, prints one export line per
reference and ends normally. -/
theorem resolveAndExport_complete (lib : Lib) (net : Network) (flags : Flags)
    (environ : List GoString) (w : World) (secrets : List Secrets)
    (hs : getTargetSecrets lib envPrefix environ = some secrets)
    (hc : LookupsComplete lib net flags secrets w.sent) :
    ∃ values,
      (vaultRetrieveSecrets lib net flags secrets w).2 = some values ∧
      resolveAndExport lib net flags environ w =
        (⟨w.sent ++ secrets.map (lookupRequest flags), w.stdout ++ exportText values⟩,
          some ()) := by
  obtain ⟨out, hrun, -, -⟩ :=
    vaultRetrieveSecretsLoop_complete lib net flags secrets [] w hc
  refine ⟨out, ?_, ?_⟩
  · rw [vaultRetrieveSecrets, hrun]
    simp
  · rw [resolveAndExport, hs]
    simp only []
    rw [vaultRetrieveSecrets, hrun]
    simp [printExports_eq]

/-- Whatever happens, `resolveAndExport` only appends to standard output and
sends the lookup requests of the first `k` scanned references, where `k` is
the point at which the lookups stop (none when the scanner faults). -/
theorem resolveAndExport_trace (lib : Lib) (net : Network) (flags : Flags)
    (environ : List GoString) (w : World) :
    ∃ k out,
      (resolveAndExport lib net flags environ w).1 =
        ⟨w.sent ++ (((getTargetSecrets lib envPrefix environ).getD []).take k).map
            (lookupRequest flags),
          w.stdout ++ out⟩ ∧
      LookupsStopAt lib net flags ((getTargetSecrets lib envPrefix environ).getD [])
        w.sent k := by
  rw [resolveAndExport]
  cases hs : getTargetSecrets lib envPrefix environ with
  | none =>
    exact ⟨0, [], by simp, Or.inl ⟨rfl, lookupsComplete_nil lib net flags w.sent⟩⟩
  | some secrets =>
    obtain ⟨k, hrun, hstop⟩ := vaultRetrieveSecretsLoop_trace lib net flags secrets [] w
    simp only [vaultRetrieveSecrets]
    cases hv : vaultRetrieveSecretsLoop lib net flags secrets [] w with
    | mk w1 res =>
      rw [hv] at hrun
      simp only at hrun
      cases res with
      | none => exact ⟨k, [], by simp [hrun], by simpa using hstop⟩
      | some values =>
        exact ⟨k, exportText values, by simp [printExports_eq, hrun], by simpa using hstop⟩

/-- C4 (as stated, refuted): for the entry `SECRET_DBPASS=kv/app/db` the
scanner does not yield a reference named `dbpass`, and with the backend
answering `{"data":{"data":{"dbpass":"s3cr3t"}}}` the program does not print
`export dbpass=s3cr3t`: the name keeps the case of the key, `DBPASS`. -/
theorem example_name_keeps_case :
    getTargetSecrets exampleLib envPrefix ["SECRET_DBPASS=kv/app/db".toList] ≠
      some [⟨"dbpass".toList, "kv/app/db".toList⟩] ∧
    (main exampleLib exampleNet { vaultToken := "t".toList }
      ["SECRET_DBPASS=kv/app/db".toList] ⟨[], []⟩).1.stdout ≠
        "\nexport dbpass=s3cr3t".toList ∧
    (main exampleLib exampleNet { vaultToken := "t".toList }
      ["SECRET_DBPASS=kv/app/db".toList] ⟨[], []⟩).1.stdout =
        "\nexport DBPASS=s3cr3t".toList := by
  decide

/-- C4 (amended): for the entry `SECRET_DBPASS=kv/app/db` the scanner yields
the reference named `DBPASS` with locator `kv/app/db`, the lookup path is
`kv/data/app/db`, and when the lookup is answered by
`{"data":{"data":{"dbpass":"s3cr3t"}}}`, decoded to a data map that holds
`s3cr3t` under `dbpass`, the text printed is `export DBPASS=s3cr3t` after a
line separator. -/
theorem example_export_line (lib : Lib) (net : Network) (flags : Flags) (w : World)
    (status : Int)
    (hlow : lib.stringsToLower "DBPASS".toList = "dbpass".toList)
    (hurl : lib.urlParses (flags.vaultAddr ++ "/v1/".toList ++ "kv/data/app/db".toList) = true)
    (hnet : net w.sent ⟨"GET".toList,
        flags.vaultAddr ++ "/v1/".toList ++ "kv/data/app/db".toList,
        [("X-Vault-Token".toList, flags.vaultToken)], []⟩ = some ⟨status, exampleBody⟩)
    (hdec : (lib.jsonUnmarshal exampleBody).SecretData.Data.lookup "dbpass".toList =
        some "s3cr3t".toList) :
    getTargetSecrets lib envPrefix ["SECRET_DBPASS=kv/app/db".toList] =
      some [⟨"DBPASS".toList, "kv/app/db".toList⟩] ∧
    lookupURL flags.vaultAddr "kv/app/db".toList =
      some (flags.vaultAddr ++ "/v1/".toList ++ "kv/data/app/db".toList) ∧
    resolveAndExport lib net flags ["SECRET_DBPASS=kv/app/db".toList] w =
      (⟨w.sent ++ [⟨"GET".toList,
          flags.vaultAddr ++ "/v1/".toList ++ "kv/data/app/db".toList,
          [("X-Vault-Token".toList, flags.vaultToken)], []⟩],
        w.stdout ++ "\nexport DBPASS=s3cr3t".toList⟩, some ()) := by
  have hscan : getTargetSecrets lib envPrefix ["SECRET_DBPASS=kv/app/db".toList] =
      some [⟨"DBPASS".toList, "kv/app/db".toList⟩] := by
    rw [getTargetSecrets, getTargetSecretsLoop_cons_envPrefix lib _ _ _ (by decide)]
    rfl
  have hreq : lookupRequest flags ⟨"DBPASS".toList, "kv/app/db".toList⟩ =
      ⟨"GET".toList, flags.vaultAddr ++ "/v1/".toList ++ "kv/data/app/db".toList,
        [("X-Vault-Token".toList, flags.vaultToken)], []⟩ := by
    simp [lookupRequest, mountOf, subpathOf]
  refine ⟨hscan, ?_, ?_⟩
  · rw [lookupURL_eq]
    simp [mountOf, subpathOf]
  · rw [resolveAndExport, hscan]
    simp only []
    rw [vaultRetrieveSecrets, vaultRetrieveSecretsLoop_cons, hreq, if_pos hurl, hnet]
    simp only []
    rw [hlow, goMapIndex, hdec]
    simp [vaultRetrieveSecretsLoop, printExports, printf]

theorem example_export_line_witness :
    (exampleLib.stringsToLower "DBPASS".toList = "dbpass".toList ∧
     exampleLib.urlParses (({} : Flags).vaultAddr ++ "/v1/".toList ++
        "kv/data/app/db".toList) = true ∧
     exampleNet (⟨[], []⟩ : World).sent ⟨"GET".toList,
        ({} : Flags).vaultAddr ++ "/v1/".toList ++ "kv/data/app/db".toList,
        [("X-Vault-Token".toList, ({} : Flags).vaultToken)], []⟩ =
          some ⟨200, exampleBody⟩ ∧
     (exampleLib.jsonUnmarshal exampleBody).SecretData.Data.lookup "dbpass".toList =
        some "s3cr3t".toList) ∧
    (getTargetSecrets exampleLib envPrefix ["SECRET_DBPASS=kv/app/db".toList] =
      some [⟨"DBPASS".toList, "kv/app/db".toList⟩] ∧
    lookupURL ({} : Flags).vaultAddr "kv/app/db".toList =
      some (({} : Flags).vaultAddr ++ "/v1/".toList ++ "kv/data/app/db".toList) ∧
    resolveAndExport exampleLib exampleNet {} ["SECRET_DBPASS=kv/app/db".toList] ⟨[], []⟩ =
      (⟨(⟨[], []⟩ : World).sent ++ [⟨"GET".toList,
          ({} : Flags).vaultAddr ++ "/v1/".toList ++ "kv/data/app/db".toList,
          [("X-Vault-Token".toList, ({} : Flags).vaultToken)], []⟩],
        (⟨[], []⟩ : World).stdout ++ "\nexport DBPASS=s3cr3t".toList⟩, some ())) :=
  ⟨⟨by decide, by decide, by decide, by decide⟩,
    example_export_line exampleLib exampleNet {} ⟨[], []⟩ 200
      (by decide) (by decide) (by decide) (by decide)⟩

/-- C7 (as stated, refuted): a login answered with status 403 and a body that
carries a client token `x` leaves the session token `x`, not the empty
string, on the lookup that follows; and when the lookup of the first reference
then fails, no lookup is issued for the second. -/
theorem login_rejected_token_not_empty :
    (main exampleLib forbiddenNet {} ["SECRET_DBPASS=kv/app/db".toList] ⟨[], []⟩).1.sent =
      [loginRequest exampleLib {},
       ⟨"GET".toList, "http://localhost:8200/v1/kv/data/app/db".toList,
        [("X-Vault-Token".toList, "x".toList)], []⟩] ∧
    (main exampleLib forbiddenDownNet {}
      ["SECRET_A=kv/a".toList, "SECRET_B=kv/b".toList] ⟨[], []⟩).1.sent =
      [loginRequest exampleLib {},
       ⟨"GET".toList, "http://localhost:8200/v1/kv/data/a".toList,
        [("X-Vault-Token".toList, "x".toList)], []⟩] := by
  decide

/-- C7 (amended): when the login call is answered with a status other than
200, `main` does not stop there: the diagnostic with the raw response body is
printed, the session token of every later lookup is the `client_token`
decoded from that body (the empty string when the body carries none), and the
lookups proceed as usual, one per reference when the scanner returns and every
lookup completes. -/
theorem main_login_rejected (lib : Lib) (net : Network) (flags : Flags)
    (environ : List GoString) (w : World) (resp : Response)
    (htok : flags.vaultToken = [])
    (hurl : lib.urlParses (loginRequest lib flags).url = true)
    (hresp : net w.sent (loginRequest lib flags) = some resp)
    (hstatus : resp.StatusCode ≠ 200) :
    (∃ k out, (main lib net flags environ w).1 =
      ⟨w.sent ++ loginRequest lib flags ::
          (((getTargetSecrets lib envPrefix environ).getD []).take k).map
            (lookupRequest (flagsAfterLogin lib flags resp)),
        w.stdout ++
          (if flags.debugMode then "\nLogging in to Vault: ".toList ++ flags.vaultAddr
           else []) ++
          "\nError occurred: ".toList ++ resp.Body ++ out⟩) ∧
    (∀ secret, (lookupRequest (flagsAfterLogin lib flags resp) secret).header =
      [("X-Vault-Token".toList, (lib.jsonUnmarshal resp.Body).Auth.Client_token)]) ∧
    ((lib.jsonUnmarshal resp.Body).Auth.Client_token = [] →
      ∀ secret, (lookupRequest (flagsAfterLogin lib flags resp) secret).header =
        [("X-Vault-Token".toList, [])]) ∧
    (∀ secrets, getTargetSecrets lib envPrefix environ = some secrets →
      LookupsComplete lib net (flagsAfterLogin lib flags resp) secrets
        (w.sent ++ [loginRequest lib flags]) →
      (main lib net flags environ w).1.sent =
        w.sent ++ loginRequest lib flags ::
          secrets.map (lookupRequest (flagsAfterLogin lib flags resp)) ∧
      (main lib net flags environ w).2 = some ()) := by
  have hmain := main_of_login lib net flags environ w resp htok hurl hresp
  refine ⟨?_, ?_, ?_, ?_⟩
  · obtain ⟨k, out, hk⟩ := resolveAndExport_sent lib net (flagsAfterLogin lib flags resp)
      environ ⟨w.sent ++ [loginRequest lib flags], w.stdout ++ loginText flags resp⟩
    refine ⟨k, out, ?_⟩
    rw [hmain, hk]
    simp [loginText, hstatus]
  · intro secret
    rfl
  · intro h secret
    simp [lookupRequest, flagsAfterLogin, h]
  · intro secrets hs hc
    obtain ⟨values, -, hrun⟩ := resolveAndExport_complete lib net
      (flagsAfterLogin lib flags resp) environ
      ⟨w.sent ++ [loginRequest lib flags], w.stdout ++ loginText flags resp⟩ secrets hs hc
    rw [hmain, hrun]
    simp

/-- C8: every lookup of a run carries one and the same session token in its
`X-Vault-Token` header.  With a non-empty token supplied, the requests `main`
sends are lookups only (no login), each carrying that token; without one, the
requests after the login are lookups that each carry the `client_token`
decoded from the login response.  In both cases the lookups are those of the
first `k` scanned references, `k` being the point at which the lookups stop:
all of them when every lookup completes. -/
theorem main_session_token (lib : Lib) (net : Network) (flags : Flags)
    (environ : List GoString) (w : World) :
    (flags.vaultToken ≠ [] →
      ∃ k out, (main lib net flags environ w).1 =
          ⟨w.sent ++ (((getTargetSecrets lib envPrefix environ).getD []).take k).map
              (fun s => (⟨"GET".toList,
                flags.vaultAddr ++ "/v1/".toList ++ mountOf s.value ++ "/data/".toList ++
                  subpathOf s.value,
                [("X-Vault-Token".toList, flags.vaultToken)], []⟩ : Request)),
            w.stdout ++ out⟩ ∧
        LookupsStopAt lib net flags ((getTargetSecrets lib envPrefix environ).getD [])
          w.sent k ∧
        (LookupsComplete lib net flags
            ((getTargetSecrets lib envPrefix environ).getD []) w.sent →
          k = ((getTargetSecrets lib envPrefix environ).getD []).length)) ∧
    (flags.vaultToken = [] →
      ∀ resp, lib.urlParses (loginRequest lib flags).url = true →
        net w.sent (loginRequest lib flags) = some resp →
        ∃ k out, (main lib net flags environ w).1 =
            ⟨w.sent ++ loginRequest lib flags ::
                (((getTargetSecrets lib envPrefix environ).getD []).take k).map
                  (fun s => (⟨"GET".toList,
                    flags.vaultAddr ++ "/v1/".toList ++ mountOf s.value ++
                      "/data/".toList ++ subpathOf s.value,
                    [("X-Vault-Token".toList,
                      (lib.jsonUnmarshal resp.Body).Auth.Client_token)], []⟩ : Request)),
              w.stdout ++ out⟩ ∧
          LookupsStopAt lib net (flagsAfterLogin lib flags resp)
            ((getTargetSecrets lib envPrefix environ).getD [])
            (w.sent ++ [loginRequest lib flags]) k ∧
          (LookupsComplete lib net (flagsAfterLogin lib flags resp)
              ((getTargetSecrets lib envPrefix environ).getD [])
              (w.sent ++ [loginRequest lib flags]) →
            k = ((getTargetSecrets lib envPrefix environ).getD []).length)) := by
  constructor
  · intro htok
    obtain ⟨k, out, hk, hstop⟩ := resolveAndExport_trace lib net flags environ w
    refine ⟨k, out, ?_, hstop, lookupsStopAt_complete _ _ _ _ _ _ hstop⟩
    rw [main_of_token lib net flags environ w htok, hk]
    rfl
  · intro htok resp hurl hresp
    obtain ⟨k, out, hk, hstop⟩ := resolveAndExport_trace lib net
      (flagsAfterLogin lib flags resp) environ
      ⟨w.sent ++ [loginRequest lib flags], w.stdout ++ loginText flags resp⟩
    refine ⟨k, loginText flags resp ++ out, ?_, hstop,
      lookupsStopAt_complete _ _ _ _ _ _ hstop⟩
    have hfun : (fun s : Secrets => (⟨"GET".toList,
        flags.vaultAddr ++ "/v1/".toList ++ mountOf s.value ++ "/data/".toList ++
          subpathOf s.value,
        [("X-Vault-Token".toList, (lib.jsonUnmarshal resp.Body).Auth.Client_token)],
        []⟩ : Request)) = lookupRequest (flagsAfterLogin lib flags resp) := rfl
    rw [main_of_login lib net flags environ w resp htok hurl hresp, hk, hfun]
    simp only [List.append_assoc, List.singleton_append]

/-! ## The theorems at concrete inputs -/

/-- On the example network every lookup completes. -/
theorem lookupsComplete_exampleNet (flags : Flags) (secrets : List Secrets)
    (sent : List Request) : LookupsComplete exampleLib exampleNet flags secrets sent :=
  fun _ _ => ⟨rfl, rfl⟩

theorem vaultRetrieveSecrets_value_witness :
    LookupsComplete exampleLib exampleNet {} exampleSecrets initialWorld.sent ∧
    ∃ values,
      (vaultRetrieveSecrets exampleLib exampleNet {} exampleSecrets initialWorld).2 =
        some values ∧
      ∀ (i : Nat) (h : i < exampleSecrets.length) (resp : Response),
        exampleNet (initialWorld.sent ++ (exampleSecrets.take i).map (lookupRequest {}))
          (lookupRequest {} (exampleSecrets.get ⟨i, h⟩)) = some resp →
        ∃ v, values.get? i = some v ∧
          v.key = (exampleSecrets.get ⟨i, h⟩).key ∧
          (∀ x, (exampleLib.jsonUnmarshal resp.Body).SecretData.Data.lookup
              (exampleLib.stringsToLower (exampleSecrets.get ⟨i, h⟩).key) = some x →
            v.value = x) ∧
          ((exampleLib.jsonUnmarshal resp.Body).SecretData.Data.lookup
              (exampleLib.stringsToLower (exampleSecrets.get ⟨i, h⟩).key) = none →
            v.value = []) ∧
          ((exampleLib.jsonUnmarshal resp.Body).SecretData.Data = [] → v.value = []) :=
  ⟨lookupsComplete_exampleNet _ _ _,
    vaultRetrieveSecrets_value exampleLib exampleNet {} exampleSecrets initialWorld
      (lookupsComplete_exampleNet _ _ _)⟩

theorem vaultRetrieveSecrets_length_order_witness :
    LookupsComplete exampleLib exampleNet {} exampleSecrets initialWorld.sent ∧
    ∃ values,
      (vaultRetrieveSecrets exampleLib exampleNet {} exampleSecrets initialWorld).2 =
        some values ∧
      values.length = exampleSecrets.length ∧
      values.map (fun v => v.key) = exampleSecrets.map (fun s => s.key) :=
  ⟨lookupsComplete_exampleNet _ _ _,
    vaultRetrieveSecrets_length_order exampleLib exampleNet {} exampleSecrets initialWorld
      (lookupsComplete_exampleNet _ _ _)⟩

theorem vaultRetrieveSecrets_abort_witness :
    (LookupsComplete exampleLib failingNet {} [refA] initialWorld.sent ∧
     exampleLib.urlParses (lookupRequest {} refB).url = true ∧
     failingNet (initialWorld.sent ++ [refA].map (lookupRequest {}))
        (lookupRequest {} refB) = none) ∧
    vaultRetrieveSecrets exampleLib failingNet {} ([refA] ++ refB :: [refC]) initialWorld =
      (⟨initialWorld.sent ++ ([refA] ++ [refB]).map (lookupRequest {}),
        initialWorld.stdout⟩, none) :=
  have hpre : LookupsComplete exampleLib failingNet {} [refA] initialWorld.sent :=
    lookupsComplete_of_cons _ _ _ _ _ _ rfl (by decide) (lookupsComplete_nil _ _ _ _)
  ⟨⟨hpre, rfl, by decide⟩,
    vaultRetrieveSecrets_abort exampleLib failingNet {} [refA] refB [refC] initialWorld
      hpre rfl (by decide)⟩

theorem main_login_rejected_witness :
    (({} : Flags).vaultToken = [] ∧
     exampleLib.urlParses (loginRequest exampleLib {}).url = true ∧
     forbiddenNet initialWorld.sent (loginRequest exampleLib {}) = some forbiddenResponse ∧
     forbiddenResponse.StatusCode ≠ 200) ∧
    ((∃ k out, (main exampleLib forbiddenNet {} exampleEnviron initialWorld).1 =
      ⟨initialWorld.sent ++ loginRequest exampleLib {} ::
          (((getTargetSecrets exampleLib envPrefix exampleEnviron).getD []).take k).map
            (lookupRequest (flagsAfterLogin exampleLib {} forbiddenResponse)),
        initialWorld.stdout ++
          (if ({} : Flags).debugMode then
            "\nLogging in to Vault: ".toList ++ ({} : Flags).vaultAddr
           else []) ++
          "\nError occurred: ".toList ++ forbiddenResponse.Body ++ out⟩) ∧
    (∀ secret, (lookupRequest (flagsAfterLogin exampleLib {} forbiddenResponse) secret).header =
      [("X-Vault-Token".toList,
        (exampleLib.jsonUnmarshal forbiddenResponse.Body).Auth.Client_token)]) ∧
    ((exampleLib.jsonUnmarshal forbiddenResponse.Body).Auth.Client_token = [] →
      ∀ secret,
        (lookupRequest (flagsAfterLogin exampleLib {} forbiddenResponse) secret).header =
          [("X-Vault-Token".toList, [])]) ∧
    (∀ secrets, getTargetSecrets exampleLib envPrefix exampleEnviron = some secrets →
      LookupsComplete exampleLib forbiddenNet
        (flagsAfterLogin exampleLib {} forbiddenResponse) secrets
        (initialWorld.sent ++ [loginRequest exampleLib {}]) →
      (main exampleLib forbiddenNet {} exampleEnviron initialWorld).1.sent =
        initialWorld.sent ++ loginRequest exampleLib {} ::
          secrets.map (lookupRequest (flagsAfterLogin exampleLib {} forbiddenResponse)) ∧
      (main exampleLib forbiddenNet {} exampleEnviron initialWorld).2 = some ())) :=
  ⟨⟨rfl, rfl, by decide, by decide⟩,
    main_login_rejected exampleLib forbiddenNet {} exampleEnviron initialWorld
      forbiddenResponse rfl rfl (by decide) (by decide)⟩

theorem main_session_token_witness :
    ((({ vaultToken := "t".toList } : Flags).vaultToken ≠ []) ∧
      ∃ k out, (main exampleLib exampleNet { vaultToken := "t".toList } exampleEnviron
            initialWorld).1 =
          ⟨initialWorld.sent ++
              (((getTargetSecrets exampleLib envPrefix exampleEnviron).getD []).take k).map
                (fun s => (⟨"GET".toList,
                  ({ vaultToken := "t".toList } : Flags).vaultAddr ++ "/v1/".toList ++
                    mountOf s.value ++ "/data/".toList ++ subpathOf s.value,
                  [("X-Vault-Token".toList,
                    ({ vaultToken := "t".toList } : Flags).vaultToken)], []⟩ : Request)),
            initialWorld.stdout ++ out⟩ ∧
        LookupsStopAt exampleLib exampleNet { vaultToken := "t".toList }
          ((getTargetSecrets exampleLib envPrefix exampleEnviron).getD [])
          initialWorld.sent k ∧
        (LookupsComplete exampleLib exampleNet { vaultToken := "t".toList }
            ((getTargetSecrets exampleLib envPrefix exampleEnviron).getD [])
            initialWorld.sent →
          k = ((getTargetSecrets exampleLib envPrefix exampleEnviron).getD []).length)) ∧
    ((({} : Flags).vaultToken = [] ∧
      exampleLib.urlParses (loginRequest exampleLib {}).url = true ∧
      grantingNet initialWorld.sent (loginRequest exampleLib {}) = some grantedResponse) ∧
      ∃ k out, (main exampleLib grantingNet {} exampleEnviron initialWorld).1 =
          ⟨initialWorld.sent ++ loginRequest exampleLib {} ::
              (((getTargetSecrets exampleLib envPrefix exampleEnviron).getD []).take k).map
                (fun s => (⟨"GET".toList,
                  ({} : Flags).vaultAddr ++ "/v1/".toList ++ mountOf s.value ++
                    "/data/".toList ++ subpathOf s.value,
                  [("X-Vault-Token".toList,
                    (exampleLib.jsonUnmarshal grantedResponse.Body).Auth.Client_token)],
                  []⟩ : Request)),
            initialWorld.stdout ++ out⟩ ∧
        LookupsStopAt exampleLib grantingNet (flagsAfterLogin exampleLib {} grantedResponse)
          ((getTargetSecrets exampleLib envPrefix exampleEnviron).getD [])
          (initialWorld.sent ++ [loginRequest exampleLib {}]) k ∧
        (LookupsComplete exampleLib grantingNet
            (flagsAfterLogin exampleLib {} grantedResponse)
            ((getTargetSecrets exampleLib envPrefix exampleEnviron).getD [])
            (initialWorld.sent ++ [loginRequest exampleLib {}]) →
          k = ((getTargetSecrets exampleLib envPrefix exampleEnviron).getD []).length)) :=
  ⟨⟨by decide,
      (main_session_token exampleLib exampleNet { vaultToken := "t".toList } exampleEnviron
        initialWorld).1 (by decide)⟩,
    ⟨⟨rfl, rfl, by decide⟩,
      (main_session_token exampleLib grantingNet {} exampleEnviron initialWorld).2 rfl
        grantedResponse rfl (by decide)⟩⟩

end KubeVaultAuth
